import Mathlib

/-
Verification development for the dockview repository (src/dockview.py and
src/dockview_fmt.py): a shallow embedding in Lean 4 of the refresh pipeline
(get_containers, parse_host_ports, load_containers), of the lifecycle action
handlers, and of the log formatter, together with theorems settling the
specification claims.

Conventions of the embedding:
  * Python dict records (the objects produced by json.loads on one line of
    docker ps output) are modelled as association lists of string keys and
    string values (Rec); dict.get with a default is recGet.
  * Python string operations are re-implemented structurally over the
    character list of the string (pySplit, pyStrip, ...) so that every
    definition evaluates by kernel reduction.
  * Exceptions are modelled with Option: a function that can raise returns
    none where Python raises.
-/

namespace Dockview

/-- Record type for one container (the dict parsed from one JSON line of
docker ps output) and for one structured log entry: an association list of
string keys and string values. -/
abbrev Rec := List (String × String)

/-- Models Python dict.get(k, d) on a Rec: the value at the first matching
key, or the default. -/
def recGet (c : Rec) (k d : String) : String :=
  match c.find? (fun kv => kv.1 == k) with
  | some kv => kv.2
  | none => d

/-- Strips a literal prefix of characters from a list: some remainder when
the list starts with the pattern, none otherwise. -/
def stripPrefixCh : List Char → List Char → Option (List Char)
  | [], l => some l
  | _ :: _, [] => none
  | p :: ps, c :: cs => if c = p then stripPrefixCh ps cs else none

/-- Does the character list start with the given pattern? -/
def isPrefOf (p l : List Char) : Bool :=
  (stripPrefixCh p l).isSome

/-- Does the character list contain the pattern as a contiguous substring?
Models the Python expression `sub in s` for nonempty sub. -/
def hasSubstr : List Char → List Char → Bool
  | [], p => p.isEmpty
  | c :: cs, p => isPrefOf p (c :: cs) || hasSubstr cs p

/-- String-level substring test: models Python `sub in s`. -/
def containsSub (s sub : String) : Bool :=
  hasSubstr s.data sub.data

/-- Splits a character list on a single separator character; models Python
str.split(sep) for a one-character separator (empty pieces are kept). -/
def splitOnChar (sep : Char) : List Char → List (List Char)
  | [] => [[]]
  | c :: cs =>
    if c = sep then [] :: splitOnChar sep cs
    else
      match splitOnChar sep cs with
      | [] => [[c]]
      | p :: ps => (c :: p) :: ps

/-- Models Python s.split(sep) for a one-character separator. -/
def pySplit (s : String) (sep : Char) : List String :=
  (splitOnChar sep s.data).map (fun l => String.mk l)

/-- The whitespace characters removed by Python str.strip(). -/
def isWs (c : Char) : Bool :=
  c = ' ' || c = '\t' || c = '\n' || c = '\r' || c = '\x0b' || c = '\x0c'

/-- Models Python s.strip(): removes whitespace at both ends. -/
def pyStrip (s : String) : String :=
  String.mk (((s.data.dropWhile isWs).reverse.dropWhile isWs).reverse)

/-- Reads the characters of one double-quoted JSON string up to the closing
quote, returning the string and the rest of the input. Escape sequences are
outside the modelled fragment and fail the parse. -/
def parseStringGo : List Char → List Char → Option (String × List Char)
  | [], _ => none
  | c :: rest, acc =>
    if c = '"' then some (String.mk acc.reverse, rest)
    else if c = '\\' then none
    else parseStringGo rest (c :: acc)

/-- Reads the members of a JSON object after the opening brace: a possibly
empty, comma-separated sequence of "key":"value" pairs followed by the
closing brace ending the input. The fuel argument bounds the number of
members and is instantiated with the length of the line, which always
suffices. -/
def parseMembers : Nat → List Char → Option Rec
  | _ + 1, '}' :: [] => some []
  | fuel + 1, '"' :: rest =>
    match parseStringGo rest [] with
    | none => none
    | some (k, rest1) =>
      match rest1 with
      | ':' :: '"' :: rest2 =>
        match parseStringGo rest2 [] with
        | none => none
        | some (v, rest3) =>
          match rest3 with
          | ',' :: rest4 =>
            match rest4 with
            | '"' :: _ => (parseMembers fuel rest4).map (fun ms => (k, v) :: ms)
            | _ => none
          | ['}'] => some [(k, v)]
          | _ => none
      | _ => none
  | _, _ => none

/-- Models json.loads restricted to the record format this program consumes:
a flat JSON object with string keys and string values, written without
surrounding whitespace or escape sequences (the shape emitted by
docker ps --format with a json template and by the structured loggers the
formatter reads). A line outside this fragment is malformed: Python raises
json.JSONDecodeError, modelled as none. -/
def json_loads (line : String) : Option Rec :=
  match line.data with
  | '{' :: rest => parseMembers line.data.length rest
  | _ => none

/-- Parses the non-empty lines of the fetch output in order. Mirrors the
loop of get_containers (dockview.py lines 27-30): empty lines are skipped,
and json.loads raising on any line aborts the whole loop (none). -/
def parseLines : List String → Option (List Rec)
  | [] => some []
  | l :: ls =>
    if l = "" then parseLines ls
    else
      match json_loads l with
      | none => none
      | some r => (parseLines ls).map (fun rs => r :: rs)

/-- Models result.stdout.strip().split(newline) followed by the per-line
parse loop of get_containers. -/
def parseStdout (stdout : String) : Option (List Rec) :=
  parseLines (pySplit (pyStrip stdout) '\n')

/-- The compose-project label prefix scanned for in get_containers. -/
def projectLabel : String := "com.docker.compose.project="

/-- Derives the project key of one container from its Labels string, as in
get_containers (dockview.py lines 34-41): split the labels on commas, take
the value of the first label starting with the compose-project prefix
(label.split with maxsplit 1, element 1, which here is the text after the
prefix), and fall back to "(standalone)" when no label matches or the value
is empty. -/
def projectOf (c : Rec) : String :=
  let labels := pySplit (recGet c "Labels" "") ','
  let projName :=
    match labels.find? (fun l => isPrefOf projectLabel.data l.data) with
    | some l => String.mk (l.data.drop projectLabel.length)
    | none => ""
  if projName = "" then "(standalone)" else projName

/-- The distinct project keys of a snapshot (the keys of the defaultdict
built in get_containers; their order is irrelevant because load_containers
iterates them sorted). -/
def projectKeys (cs : List Rec) : List String :=
  (cs.map projectOf).dedup

/-- The containers of one project, in fetch order (the defaultdict appends
containers in iteration order). -/
def groupOf (cs : List Rec) (p : String) : List Rec :=
  cs.filter (fun c => projectOf c == p)

/-- The grouped mapping returned by get_containers: project key to the
containers of that project. -/
def groupContainers (cs : List Rec) : List (String × List Rec) :=
  (projectKeys cs).map (fun p => (p, groupOf cs p))

/-- Dict lookup grouped:project-key on the grouped mapping. -/
def lookupGroup (g : List (String × List Rec)) (p : String) : List Rec :=
  match g.find? (fun e => e.1 == p) with
  | some e => e.2
  | none => []

/-- get_containers as a whole: none when the external invocation raises
(stdout absent) or when the output lines fail to parse; otherwise the
grouped mapping. -/
def get_containers (stdout : Option String) : Option (List (String × List Rec)) :=
  match stdout with
  | none => none
  | some s => (parseStdout s).map groupContainers

/-- Inserts a string into a sorted list, keeping lexicographic order. -/
def insertStr (s : String) : List String → List String
  | [] => [s]
  | t :: ts => if s ≤ t then s :: t :: ts else t :: insertStr s ts

/-- Insertion sort on strings; models Python sorted() on the project keys
(lexicographic by code point). -/
def sortStrings : List String → List String
  | [] => []
  | s :: ss => insertStr s (sortStrings ss)

/-- The (project, container) pairs in the order the load_containers loop
visits them: projects sorted lexicographically, containers within a project
in fetch order. -/
def orderedPairs (g : List (String × List Rec)) : List (String × Rec) :=
  (sortStrings (g.map Prod.fst)).flatMap
    (fun p => (lookupGroup g p).map (fun c => (p, c)))

/-- Longest digit prefix of a character list together with the rest; models
the greedy digit-plus part of the port regex. -/
def takeDigits : List Char → List Char × List Char
  | [] => ([], [])
  | c :: cs =>
    if c.isDigit then
      match takeDigits cs with
      | (ds, rest) => (c :: ds, rest)
    else ([], c :: cs)

/-- All captures of the regex 0.0.0.0:(digits)-> in the character list, as
re.findall returns them. The scan tries every position; since no match of
this pattern can start strictly inside another match (the digit run and the
arrow contain no dot, and the dotted prefix admits no self-overlap), the
position-by-position scan returns exactly the leftmost non-overlapping
matches that re.findall produces. -/
def findPorts : List Char → List String
  | [] => []
  | c :: cs =>
    (match stripPrefixCh "0.0.0.0:".data (c :: cs) with
     | some rest =>
       match takeDigits rest with
       | (ds, rest2) =>
         if ds ≠ [] && (stripPrefixCh "->".data rest2).isSome then
           [String.mk ds]
         else []
     | none => []) ++ findPorts cs

/-- Numeric value of a digit string; models Python int() on a regex capture
of digits. -/
def portVal (s : String) : Nat :=
  s.data.foldl (fun n c => n * 10 + (c.toNat - '0'.toNat)) 0

/-- Inserts a port string into a list sorted by numeric value. -/
def insertPort (x : String) : List String → List String
  | [] => [x]
  | y :: ys => if portVal x ≤ portVal y then x :: y :: ys else y :: insertPort x ys

/-- Insertion sort by numeric value; models Python sorted(..., key=int). -/
def sortPorts : List String → List String
  | [] => []
  | x :: xs => insertPort x (sortPorts xs)

/-- Joins strings with a separator; models Python sep.join(...). -/
def joinSep (sep : String) : List String → String
  | [] => ""
  | [x] => x
  | x :: y :: ys => x ++ sep ++ joinSep sep (y :: ys)

/-- parse_host_ports (dockview.py lines 47-54): empty input yields "-";
otherwise the regex captures are deduplicated (set), sorted numerically
(sorted with key int) and joined with comma-space; no capture yields "-".
Python's set has no specified iteration order; it is modelled as List.dedup,
which only matters for the relative order of distinct digit strings with
equal numeric value, which docker output never produces. -/
def parse_host_ports (ports_str : String) : String :=
  if ports_str = "" then "-"
  else
    let found := findPorts ports_str.data
    if found ≠ [] then joinSep ", " (sortPorts found.dedup)
    else "-"

/-- Status classification of the load_containers loop: a container is
running iff its Status text contains "Up". -/
def isRunningRec (c : Rec) : Bool :=
  containsSub (recGet c "Status" "") "Up"

/-- The colorized status cell built in load_containers (lines 144-150). -/
def statusDisplayOf (status : String) : String :=
  if containsSub status "Up" then "[green]" ++ status ++ "[/green]"
  else if containsSub status "Exited" then "[red]" ++ status ++ "[/red]"
  else "[yellow]" ++ status ++ "[/yellow]"

/-- One rendered table row: the four cells added by table.add_row plus the
row key (the container name). -/
structure Row where
  project : String
  name : String
  statusDisplay : String
  ports : String
  key : String
deriving DecidableEq, Repr

/-- The row-building loop of load_containers (lines 135-164) over the
ordered (project, container) pairs: classifies status, counts running
containers before the filter test, skips non-running containers when the
filter hides stopped ones while still counting them in total, and otherwise
adds a row keyed by the container name. Returns (rows, total, running).
Docker container names are unique, so the DataTable key-uniqueness
constraint of add_row is met and is not modelled. -/
def buildRows (ps : List (String × Rec)) (showAll : Bool) : List Row × Nat × Nat :=
  match ps with
  | [] => ([], 0, 0)
  | (proj, c) :: rest =>
    let name := recGet c "Names" ""
    let status := recGet c "Status" ""
    let ports := parse_host_ports (recGet c "Ports" "")
    let isR := isRunningRec c
    let r := buildRows rest showAll
    let running := if isR then r.2.2 + 1 else r.2.2
    if !showAll && !isR then
      (r.1, r.2.1 + 1, running)
    else
      ({ project := "[bold cyan]" ++ proj ++ "[/bold cyan]", name := name,
         statusDisplay := statusDisplayOf status, ports := ports, key := name } :: r.1,
       r.2.1 + 1, running)

/-- The view-model build for one snapshot: group the containers, iterate
projects in sorted order, and run the row-building loop. -/
def viewRows (cs : List Rec) (showAll : Bool) : List Row × Nat × Nat :=
  buildRows (orderedPairs (groupContainers cs)) showAll

/-- First index of a key in the row-name list; models row_names.index,
which is only reached under a membership test. -/
def idxOfKey (k : String) : List String → Nat
  | [] => 0
  | x :: xs => if x = k then 0 else idxOfKey k xs + 1

/-- Does the remembered selection key match a row of the new view? Mirrors
the Python test selected_key and selected_key in row_names (a remembered
empty-string key is falsy and never matches). -/
def selMatches (sel : Option String) (rowNames : List String) : Bool :=
  match sel with
  | some k => (!(k == "")) && rowNames.contains k
  | none => false

/-- Cursor reconciliation of load_containers (lines 166-173): if the
remembered selection key is present (and truthy) among the new row names,
restore its first index there; otherwise, if the previous row index is
below the total container count (including rows hidden by the filter),
restore that positional index; otherwise restore nothing. -/
def restoreIdx (sel : Option String) (prevRowIdx : Nat) (rowNames : List String)
    (total : Nat) : Option Nat :=
  match sel with
  | some k =>
    if (!(k == "")) && rowNames.contains k then some (idxOfKey k rowNames)
    else if prevRowIdx < total then some prevRowIdx else none
  | none => if prevRowIdx < total then some prevRowIdx else none

/-- Display state owned by the app: the table rows, the cursor row
coordinate, the status-bar text and the filter flag _show_all. -/
structure AppState where
  rows : List Row
  cursorRow : Nat
  statusBar : String
  showAll : Bool
deriving DecidableEq, Repr

/-- The status-bar text set at the end of load_containers (line 176). -/
def statusLine (running total : Nat) (showAll : Bool) : String :=
  " " ++ toString running ++ "/" ++ toString total ++ " running | filter: " ++
    (if showAll then "all" else "running only")

/-- load_containers (dockview.py lines 116-176) as a state transition. The
fetch argument is the outcome of get_containers: none when it raises
(subprocess invocation failure or a JSON parse error). Mirroring the source
order: the remembered selection and previous cursor row are captured first,
then table.clear() empties the rows and resets the cursor coordinate, and
only then is the fetch consumed — so on a failed fetch the function stops
with the table already cleared and the status bar untouched. On success the
rows, cursor and status bar are rebuilt; cursorRow records the argument of
table.move_cursor (the widget clamps an out-of-range row when rendering),
and is left at the cleared coordinate when no restore index was computed. -/
def load_containers (st : AppState) (fetch : Option (List Rec)) : AppState :=
  let selectedKey := (st.rows[st.cursorRow]?).map Row.key
  let prevRowIdx := st.cursorRow
  let cleared : AppState := { st with rows := [], cursorRow := 0 }
  match fetch with
  | none => cleared
  | some cs =>
    let r := viewRows cs st.showAll
    let rowNames := r.1.map Row.key
    let ridx := restoreIdx selectedKey prevRowIdx rowNames r.2.1
    { cleared with
      rows := r.1
      cursorRow := match ridx with | some i => i | none => cleared.cursorRow
      statusBar := statusLine r.2.2 r.2.1 st.showAll }

/-- Observable events of an action handler, in completion order: a
notification (message and severity; textual's default severity is
"information"), the completion of one external docker command (with the
exit status the external process returned), and one refresh (a call of
load_containers). -/
inductive Ev where
  | notify (msg severity : String)
  | cmd (verb name : String) (exitCode : Int)
  | refresh
deriving DecidableEq, Repr

/-- Is the event a completed external command? -/
def isCmd : Ev → Bool
  | .cmd _ _ _ => true
  | _ => false

/-- Is the event a refresh? -/
def isRefresh : Ev → Bool
  | .refresh => true
  | _ => false

/-- The notification messages of a trace, in order. -/
def notifMsgs (t : List Ev) : List String :=
  t.filterMap (fun e => match e with | .notify m _ => some m | _ => none)

/-- Do all notifications of the trace carry severity "information"? -/
def allInfoSeverity (t : List Ev) : Bool :=
  t.all (fun e => match e with | .notify _ sev => sev == "information" | _ => true)

/-- Trace of a single-target action handler (action_restart / action_start /
action_stop, dockview.py lines 219-244), parameterized by the verb and the
two message words: when a row is selected, notify progress, run docker_cmd
(subprocess.run without check: the CompletedProcess and its exit status are
discarded and no exception is raised on a non-zero exit), refresh via
call_from_thread(load_containers), and notify the success message with
severity "information" unconditionally. -/
def single_action (verb progressing done : String) (selected : Option String)
    (exitCode : Int) : List Ev :=
  match selected with
  | none => []
  | some name =>
    [Ev.notify (progressing ++ " " ++ name ++ "...") "information",
     Ev.cmd verb name exitCode,
     Ev.refresh,
     Ev.notify (name ++ " " ++ done) "information"]

/-- action_restart: the single-target handler with verb "restart". -/
def action_restart (selected : Option String) (exitCode : Int) : List Ev :=
  single_action "restart" "Restarting" "restarted" selected exitCode

/-- action_start: the single-target handler with verb "start". -/
def action_start (selected : Option String) (exitCode : Int) : List Ev :=
  single_action "start" "Starting" "started" selected exitCode

/-- action_stop: the single-target handler with verb "stop". -/
def action_stop (selected : Option String) (exitCode : Int) : List Ev :=
  single_action "stop" "Stopping" "stopped" selected exitCode

/-- Trace of a project-scoped bulk handler (action_restart_project and
friends, dockview.py lines 246-277): when a project row is selected, the
member containers are freshly resolved (the members argument), a progress
notification is emitted, every member's command is submitted to a
ThreadPoolExecutor whose with-block joins all of them before it exits, and
only then the refresh and the summary notification run. The trace records
the member commands in list order; among themselves they complete
concurrently, but all of them precede the refresh because the pool is
joined first. exits gives each member's exit status. -/
def project_action (verb progressing done : String) (project : Option String)
    (members : List String) (exits : String → Int) : List Ev :=
  match project with
  | none => []
  | some p =>
    Ev.notify (progressing ++ " all " ++ toString members.length ++
        " containers in " ++ p ++ "...") "information"
      :: (members.map (fun n => Ev.cmd verb n (exits n))
      ++ [Ev.refresh,
          Ev.notify (p ++ " " ++ done ++ " (" ++ toString members.length ++
            " containers)") "information"])

/-- action_restart_project: the bulk handler with verb "restart". -/
def action_restart_project (project : Option String) (members : List String)
    (exits : String → Int) : List Ev :=
  project_action "restart" "Restarting" "restarted" project members exits

/-- action_start_project: the bulk handler with verb "start". -/
def action_start_project (project : Option String) (members : List String)
    (exits : String → Int) : List Ev :=
  project_action "start" "Starting" "started" project members exits

/-- action_stop_project: the bulk handler with verb "stop". -/
def action_stop_project (project : Option String) (members : List String)
    (exits : String → Int) : List Ev :=
  project_action "stop" "Stopping" "stopped" project members exits

/-- In the trace, every completed command event precedes every refresh
event. -/
def cmdsBeforeRefresh (t : List Ev) : Prop :=
  ∀ (i j : Nat) (ei ej : Ev), t[i]? = some ei → t[j]? = some ej →
    isCmd ei = true → isRefresh ej = true → i < j

/-- The ActionError of the specification's dispatch contract: verb, target
container and cause. -/
structure ActionError where
  verb : String
  containerName : String
  cause : String
deriving DecidableEq, Repr

/-- Modelled from the spec: the single-target dispatch contract of section
4.5 — the external command's own exit status determines success, a non-zero
exit becomes an ActionError carrying verb, container name and cause. The
source's docker_cmd implements no such check; this definition exists to
state the divergence. -/
def dispatch_spec (verb name : String) (exitCode : Int) : Except ActionError Unit :=
  if exitCode = 0 then Except.ok ()
  else Except.error ⟨verb, name, "exit status " ++ toString exitCode⟩

/-- ANSI reset code used by dockview_fmt. -/
def RESET : String := "\x1b[0m"

/-- ANSI red. -/
def RED : String := "\x1b[31m"

/-- ANSI yellow. -/
def YELLOW : String := "\x1b[33m"

/-- ANSI green. -/
def GREEN : String := "\x1b[32m"

/-- ANSI cyan. -/
def CYAN : String := "\x1b[36m"

/-- ANSI gray. -/
def GRAY : String := "\x1b[90m"

/-- The LEVEL_COLORS table of dockview_fmt: color and fixed-width label for
the known levels. -/
def LEVEL_COLORS (level : String) : Option (String × String) :=
  if level = "error" then some (RED, "ERROR")
  else if level = "warn" then some (YELLOW, "WARN ")
  else if level = "warning" then some (YELLOW, "WARN ")
  else if level = "info" then some (GREEN, "INFO ")
  else if level = "debug" then some (CYAN, "DEBUG")
  else none

/-- Models Python s.lower() (ASCII). -/
def lowerStr (s : String) : String :=
  String.mk (s.data.map Char.toLower)

/-- Models Python s.upper() (ASCII). -/
def upperStr (s : String) : String :=
  String.mk (s.data.map Char.toUpper)

/-- Models Python s.ljust(5). -/
def ljust5 (s : String) : String :=
  s ++ String.mk (List.replicate (5 - s.data.length) ' ')

/-- Models the Python slice s with bounds 11 and 19 used on the timestamp. -/
def slice11to19 (s : String) : String :=
  String.mk ((s.data.drop 11).take 8)

/-- The colorized line dockview_fmt builds from one parsed log entry
(dockview_fmt.py lines 34-47): level-colored label, gray time-of-day slice
of the timestamp, message, and a request suffix when a path field is
present (Python truthiness of entry.get on the path). -/
def formatEntry (e : Rec) : String :=
  let level := lowerStr (recGet e "level" "")
  let cl := (LEVEL_COLORS level).getD (CYAN, ljust5 (upperStr level))
  let timestamp := slice11to19 (recGet e "timestamp" "")
  let message := recGet e "message" ""
  let extra :=
    if recGet e "path" "" ≠ "" then
      " (" ++ recGet e "method" "" ++ " " ++ recGet e "path" "" ++ " " ++
        recGet e "status" "" ++ " " ++ recGet e "db" "" ++ "ms)"
    else ""
  cl.1 ++ cl.2 ++ RESET ++ " " ++ GRAY ++ timestamp ++ RESET ++ " " ++
    message ++ extra

/-- The main loop of dockview_fmt for one raw input line: strip it, drop it
when empty, print it (as stripped) when json.loads fails, and otherwise
print the one colorized line. The result is the list of lines printed for
this input line. -/
def fmtLine (raw : String) : List String :=
  let line := pyStrip raw
  if line = "" then []
  else
    match json_loads line with
    | none => [line]
    | some e => [formatEntry e]

/-- Membership in an insertion step of the string sort. -/
theorem mem_insertStr (a s : String) (l : List String) :
    a ∈ insertStr s l ↔ a = s ∨ a ∈ l := by
  induction l with
  | nil => simp [insertStr]
  | cons t ts ih =>
    unfold insertStr
    by_cases h : s ≤ t
    · simp [h]
    · simp [h, ih]
      tauto

/-- Sorting the project keys does not change membership. -/
theorem mem_sortStrings (a : String) (l : List String) :
    a ∈ sortStrings l ↔ a ∈ l := by
  induction l with
  | nil => simp [sortStrings]
  | cons s ss ih => simp [sortStrings, mem_insertStr, ih]

/-- Insertion preserves distinctness. -/
theorem nodup_insertStr (s : String) (l : List String) (hs : s ∉ l) (h : l.Nodup) :
    (insertStr s l).Nodup := by
  induction l with
  | nil => simp [insertStr]
  | cons t ts ih =>
    unfold insertStr
    by_cases hle : s ≤ t
    · simp only [hle, if_true, List.nodup_cons]
      exact ⟨hs, List.nodup_cons.mp h⟩
    · have hnc := List.nodup_cons.mp h
      have hs' : s ∉ ts := fun hm => hs (List.mem_cons_of_mem _ hm)
      simp only [hle, if_false, List.nodup_cons]
      refine ⟨?_, ih hs' hnc.2⟩
      intro hm
      rcases (mem_insertStr t s ts).mp hm with h1 | h1
      · cases h1
        exact hs (List.mem_cons_self _ _)
      · exact hnc.1 h1

/-- Sorting the project keys preserves distinctness. -/
theorem nodup_sortStrings (l : List String) (h : l.Nodup) : (sortStrings l).Nodup := by
  induction l with
  | nil => simp only [sortStrings]; exact List.nodup_nil
  | cons s ss ih =>
    have hnc := List.nodup_cons.mp h
    have hns : s ∉ sortStrings ss := fun hm => hnc.1 ((mem_sortStrings s ss).mp hm)
    exact nodup_insertStr s (sortStrings ss) hns (ih hnc.2)

/-- Pointwise-equal functions give the same flatMap. -/
theorem flatMap_congrMem {α β : Type _} (l : List α) (f g : α → List β)
    (h : ∀ a ∈ l, f a = g a) : l.flatMap f = l.flatMap g := by
  induction l with
  | nil => rfl
  | cons a as ih =>
    rw [List.flatMap_cons, List.flatMap_cons, h a (by simp),
      ih (fun b hb => h b (by simp [hb]))]

/-- Looking a key up in a list of pairs built over a key list finds the
paired value exactly when the key occurs. -/
theorem find_mapPair (ks : List String) (f : String → List Rec) (q : String) :
    ((ks.map fun p => (p, f p)).find? fun e => e.1 == q)
      = if q ∈ ks then some (q, f q) else none := by
  induction ks with
  | nil => simp
  | cons p ps ih =>
    by_cases h : p = q
    · subst h
      simp [List.find?_cons_of_pos]
    · have hb : ((p, f p).1 == q) = false := by simp [h]
      rw [List.map_cons, List.find?_cons_of_neg _ (by simp [hb]), ih]
      have h' : ¬q = p := fun e => h e.symm
      simp [h']

/-- On the grouped mapping of a snapshot, lookup of a present project key
yields that project's containers. -/
theorem lookupGroup_eq (cs : List Rec) (p : String) (hp : p ∈ projectKeys cs) :
    lookupGroup (groupContainers cs) p = groupOf cs p := by
  unfold lookupGroup groupContainers
  rw [find_mapPair]
  simp [hp]

/-- The ordered pair list of a snapshot, written directly over the sorted
distinct project keys. -/
theorem orderedPairs_group_eq (cs : List Rec) :
    orderedPairs (groupContainers cs)
      = (sortStrings (projectKeys cs)).flatMap
          (fun p => (groupOf cs p).map (fun c => (p, c))) := by
  unfold orderedPairs
  have h1 : (groupContainers cs).map Prod.fst = projectKeys cs := by
    unfold groupContainers
    rw [List.map_map]
    simp only [Function.comp_def]
    exact List.map_id' (projectKeys cs)
  rw [h1]
  apply flatMap_congrMem
  intro p hp
  rw [lookupGroup_eq cs p ((mem_sortStrings p (projectKeys cs)).mp hp)]

/-- Flattening the per-key groups of a snapshot over distinct covering keys
is a permutation of the snapshot. -/
theorem flatMap_groupOf_perm (keys : List String) (cs : List Rec)
    (hnd : keys.Nodup) (hcov : ∀ c ∈ cs, projectOf c ∈ keys) :
    (keys.flatMap (fun p => groupOf cs p)).Perm cs := by
  induction keys generalizing cs with
  | nil =>
    cases cs with
    | nil => simp
    | cons c cs' => exact absurd (hcov c (by simp)) (by simp)
  | cons p ks ih =>
    rw [List.flatMap_cons]
    have hnc := List.nodup_cons.mp hnd
    have hks : ∀ q ∈ ks,
        groupOf cs q = groupOf (cs.filter fun c => !(projectOf c == p)) q := by
      intro q hq
      unfold groupOf
      rw [List.filter_filter]
      apply List.filter_congr
      intro c _
      by_cases h : projectOf c = q
      · have hqp : q ≠ p := fun e => hnc.1 (e ▸ hq)
        simp [h, hqp]
      · simp [h]
    rw [flatMap_congrMem ks _ _ hks]
    have hcov' : ∀ c ∈ cs.filter (fun c => !(projectOf c == p)), projectOf c ∈ ks := by
      intro c hc
      have hmem := List.mem_of_mem_filter hc
      have hne : ¬(projectOf c == p) = true := by
        have := List.of_mem_filter hc
        simpa using this
      rcases List.mem_cons.mp (hcov c hmem) with h | h
      · exact absurd (by simp [h]) hne
      · exact h
    have ih' := ih (cs.filter fun c => !(projectOf c == p)) hnc.2 hcov'
    refine List.Perm.trans (List.Perm.append_left (groupOf cs p) ih') ?_
    unfold groupOf
    exact List.filter_append_perm _ cs

/-- The container components of the ordered pair list are a permutation of
the snapshot: each container is visited exactly once by the row loop. -/
theorem pairs_snd_perm (cs : List Rec) :
    ((orderedPairs (groupContainers cs)).map Prod.snd).Perm cs := by
  rw [orderedPairs_group_eq, List.map_flatMap]
  have h : ∀ p ∈ sortStrings (projectKeys cs),
      ((groupOf cs p).map (fun c => (p, c))).map Prod.snd = groupOf cs p := by
    intro p _
    rw [List.map_map]
    simp
  rw [flatMap_congrMem _ _ _ h]
  apply flatMap_groupOf_perm
  · exact nodup_sortStrings _ (List.nodup_dedup _)
  · intro c hc
    rw [mem_sortStrings]
    exact List.mem_dedup.mpr (List.mem_map_of_mem projectOf hc)

/-- The total counter of the row loop counts every visited pair, including
pairs skipped by the filter. -/
theorem buildRows_total (ps : List (String × Rec)) (b : Bool) :
    (buildRows ps b).2.1 = ps.length := by
  induction ps with
  | nil => rfl
  | cons pc rest ih =>
    obtain ⟨p, c⟩ := pc
    simp only [buildRows]
    split
    · simp [ih]
    · simp [ih]

/-- The running counter of the row loop counts exactly the visited pairs
whose container is classified running, in either filter mode: the counter
is incremented before the filter test. -/
theorem buildRows_running (ps : List (String × Rec)) (b : Bool) :
    (buildRows ps b).2.2 = ps.countP (fun pc => isRunningRec pc.2) := by
  induction ps with
  | nil => rfl
  | cons pc rest ih =>
    obtain ⟨p, c⟩ := pc
    simp only [buildRows, List.countP_cons]
    cases hR : isRunningRec c with
    | true => split <;> simp [hR, ih]
    | false => split <;> simp [hR, ih]

/-- With the filter off, the row loop adds one row per visited pair. -/
theorem buildRows_len_all (ps : List (String × Rec)) :
    (buildRows ps true).1.length = ps.length := by
  induction ps with
  | nil => rfl
  | cons pc rest ih =>
    obtain ⟨p, c⟩ := pc
    simp [buildRows, ih]

/-- With the filter on, the row loop adds one row per running pair. -/
theorem buildRows_len_filtered (ps : List (String × Rec)) :
    (buildRows ps false).1.length = ps.countP (fun pc => isRunningRec pc.2) := by
  induction ps with
  | nil => rfl
  | cons pc rest ih =>
    obtain ⟨p, c⟩ := pc
    simp only [buildRows, List.countP_cons]
    cases hR : isRunningRec c with
    | true => simp [hR, ih]
    | false => simp [hR, ih]

/-- The total aggregate of the view build equals the number of containers
in the snapshot, in either filter mode. -/
theorem viewRows_total (cs : List Rec) (b : Bool) :
    (viewRows cs b).2.1 = cs.length := by
  unfold viewRows
  rw [buildRows_total]
  have h := (pairs_snd_perm cs).length_eq
  rwa [List.length_map] at h

/-- The running aggregate of the view build counts the running containers
of the whole snapshot, in either filter mode. -/
theorem viewRows_running (cs : List Rec) (b : Bool) :
    (viewRows cs b).2.2 = cs.countP isRunningRec := by
  unfold viewRows
  rw [buildRows_running]
  have h1 : (orderedPairs (groupContainers cs)).countP (fun pc => isRunningRec pc.2)
      = ((orderedPairs (groupContainers cs)).map Prod.snd).countP isRunningRec := by
    rw [List.countP_map]
    rfl
  rw [h1]
  exact (pairs_snd_perm cs).countP_eq isRunningRec

/-- With the filter off, the view has one row per container. -/
theorem viewRows_len_all (cs : List Rec) :
    (viewRows cs true).1.length = cs.length := by
  unfold viewRows
  rw [buildRows_len_all]
  have h := (pairs_snd_perm cs).length_eq
  rwa [List.length_map] at h

/-- With the filter on, the view has one row per running container. -/
theorem viewRows_len_filtered (cs : List Rec) :
    (viewRows cs false).1.length = cs.countP isRunningRec := by
  unfold viewRows
  rw [buildRows_len_filtered]
  have h1 : (orderedPairs (groupContainers cs)).countP (fun pc => isRunningRec pc.2)
      = ((orderedPairs (groupContainers cs)).map Prod.snd).countP isRunningRec := by
    rw [List.countP_map]
    rfl
  rw [h1]
  exact (pairs_snd_perm cs).countP_eq isRunningRec

/-- Membership in an insertion step of the numeric port sort. -/
theorem mem_insertPort (a x : String) (l : List String) :
    a ∈ insertPort x l ↔ a = x ∨ a ∈ l := by
  induction l with
  | nil => simp [insertPort]
  | cons y ys ih =>
    unfold insertPort
    by_cases h : portVal x ≤ portVal y
    · simp [h]
    · simp [h, ih]
      tauto

/-- The numeric port sort does not change membership. -/
theorem mem_sortPorts (a : String) (l : List String) :
    a ∈ sortPorts l ↔ a ∈ l := by
  induction l with
  | nil => simp [sortPorts]
  | cons x xs ih => simp [sortPorts, mem_insertPort, ih]

/-- Inserting into a numerically ascending list keeps it ascending. -/
theorem pairwise_insertPort (x : String) (l : List String)
    (h : l.Pairwise (fun a b => portVal a ≤ portVal b)) :
    (insertPort x l).Pairwise (fun a b => portVal a ≤ portVal b) := by
  induction l with
  | nil => simp [insertPort]
  | cons y ys ih =>
    unfold insertPort
    rcases List.pairwise_cons.mp h with ⟨hy, hys⟩
    by_cases hle : portVal x ≤ portVal y
    · simp only [hle, if_true, List.pairwise_cons]
      refine ⟨?_, hy, hys⟩
      intro b hb
      rcases List.mem_cons.mp hb with hb | hb
      · exact hb ▸ hle
      · exact le_trans hle (hy b hb)
    · simp only [hle, if_false, List.pairwise_cons]
      refine ⟨?_, ih hys⟩
      intro b hb
      rcases (mem_insertPort b x ys).mp hb with hb | hb
      · exact hb ▸ le_of_not_le hle
      · exact hy b hb

/-- The numeric port sort sorts ascending by numeric value. -/
theorem pairwise_sortPorts (l : List String) :
    (sortPorts l).Pairwise (fun a b => portVal a ≤ portVal b) := by
  induction l with
  | nil => simp [sortPorts]
  | cons x xs ih => exact pairwise_insertPort x (sortPorts xs) ih

/-- Insertion of a fresh element preserves distinctness. -/
theorem nodup_insertPort (x : String) (l : List String) (hx : x ∉ l) (h : l.Nodup) :
    (insertPort x l).Nodup := by
  induction l with
  | nil => simp [insertPort]
  | cons y ys ih =>
    unfold insertPort
    by_cases hle : portVal x ≤ portVal y
    · simp only [hle, if_true, List.nodup_cons]
      exact ⟨hx, List.nodup_cons.mp h⟩
    · have hnc := List.nodup_cons.mp h
      have hx' : x ∉ ys := fun hm => hx (List.mem_cons_of_mem _ hm)
      simp only [hle, if_false, List.nodup_cons]
      refine ⟨?_, ih hx' hnc.2⟩
      intro hm
      rcases (mem_insertPort y x ys).mp hm with h1 | h1
      · cases h1
        exact hx (List.mem_cons_self _ _)
      · exact hnc.1 h1

/-- The numeric port sort preserves distinctness. -/
theorem nodup_sortPorts (l : List String) (h : l.Nodup) : (sortPorts l).Nodup := by
  induction l with
  | nil => simp only [sortPorts]; exact List.nodup_nil
  | cons x xs ih =>
    have hnc := List.nodup_cons.mp h
    have hnx : x ∉ sortPorts xs := fun hm => hnc.1 ((mem_sortPorts x xs).mp hm)
    exact nodup_insertPort x (sortPorts xs) hnx (ih hnc.2)

/-- When the regex finds no capture, parse_host_ports yields the
placeholder. -/
theorem parse_host_ports_dash (s : String) (h : findPorts s.data = []) :
    parse_host_ports s = "-" := by
  unfold parse_host_ports
  by_cases he : s = ""
  · simp [he]
  · simp [he, h]

/-- When the regex finds captures, parse_host_ports joins their
deduplicated numeric sort. -/
theorem parse_host_ports_join (s : String) (h : findPorts s.data ≠ []) :
    parse_host_ports s = joinSep ", " (sortPorts (findPorts s.data).dedup) := by
  unfold parse_host_ports
  have he : ¬s = "" := by
    intro he
    apply h
    rw [he]
    rfl
  simp [he, h]

/-- The per-line loop of get_containers in closed form: it yields records
exactly when every non-empty line parses, and then yields all of them. -/
theorem parseLines_eq (lines : List String) :
    parseLines lines =
      (if lines.any (fun l => (!(l == "")) && (json_loads l).isNone) then none
       else some ((lines.filter (fun l => !(l == ""))).filterMap json_loads)) := by
  induction lines with
  | nil => rfl
  | cons l ls ih =>
    by_cases hl : l = ""
    · subst hl
      simpa [parseLines] using ih
    · cases hj : json_loads l with
      | none => simp [parseLines, hl, hj]
      | some r =>
        simp only [parseLines, hl, if_false, hj, ih]
        by_cases ha : ls.any (fun l => (!(l == "")) && (json_loads l).isNone) = true
        · simp [ha, hl]
        · simp only [Bool.not_eq_true] at ha
          simp [ha, hl, hj]

/-- In a trace made of a refresh-free part followed by a command-free part,
every command precedes every refresh. -/
theorem cmdsBefore_of_shape (l₁ l₂ : List Ev)
    (h₁ : ∀ e ∈ l₁, isRefresh e = false) (h₂ : ∀ e ∈ l₂, isCmd e = false) :
    cmdsBeforeRefresh (l₁ ++ l₂) := by
  intro i j ei ej hi hj hci hrj
  have hilt : i < l₁.length := by
    by_contra hge
    push_neg at hge
    rw [List.getElem?_append_right hge] at hi
    have hmem : ei ∈ l₂ := List.getElem?_mem hi
    rw [h₂ ei hmem] at hci
    exact Bool.false_ne_true hci
  have hjge : l₁.length ≤ j := by
    by_contra hlt
    push_neg at hlt
    rw [List.getElem?_append, if_pos hlt] at hj
    have hmem : ej ∈ l₁ := List.getElem?_mem hj
    rw [h₁ ej hmem] at hrj
    exact Bool.false_ne_true hrj
  omega

/-- Counterexample to Claim C1. The claim requires that when the previous
selection is absent from the new rows and the previous row index is not
within bounds of the new row sequence, no row is selected. In the code the
positional fallback is bounded by the total container count, which with the
running-only filter active exceeds the row count: for a snapshot of one
running container "a" and one exited container "c" viewed with the filter
on, the new row sequence is just ["a"] and total is 2, yet with remembered
selection "b" (absent) and previous row index 1 the reconciler restores
index 1 — outside the one-row sequence — instead of none, and
load_containers passes that index to move_cursor. -/
theorem c1_counterexample :
    ((viewRows [[("Names", "a"), ("Status", "Up 2 seconds")],
        [("Names", "c"), ("Status", "Exited (0) 1 second ago")]] false).1.map Row.key
      = ["a"])
    ∧ (viewRows [[("Names", "a"), ("Status", "Up 2 seconds")],
        [("Names", "c"), ("Status", "Exited (0) 1 second ago")]] false).2.1 = 2
    ∧ restoreIdx (some "b") 1
        ((viewRows [[("Names", "a"), ("Status", "Up 2 seconds")],
          [("Names", "c"), ("Status", "Exited (0) 1 second ago")]] false).1.map Row.key)
        ((viewRows [[("Names", "a"), ("Status", "Up 2 seconds")],
          [("Names", "c"), ("Status", "Exited (0) 1 second ago")]] false).2.1)
      = some 1
    ∧ selMatches (some "b") ["a"] = false
    ∧ ¬(1 < (["a"] : List String).length)
    ∧ (load_containers
        ⟨[⟨"[bold cyan](standalone)[/bold cyan]", "a", "s", "-", "a"⟩,
          ⟨"[bold cyan](standalone)[/bold cyan]", "b", "s", "-", "b"⟩], 1, "", false⟩
        (some [[("Names", "a"), ("Status", "Up 2 seconds")],
          [("Names", "c"), ("Status", "Exited (0) 1 second ago")]])).cursorRow = 1 := by
  decide

/-- Claim C1 (amended): cursor reconciliation follows the two-tier rule
with the positional bound taken against the snapshot's total container
count rather than the length of the new row sequence: (1) the total equals
the snapshot size; (2) if the previous selection's identity occurs (with a
truthy key) in the new row names, the restored index is its first index
there; (3) otherwise, if the previous row index is below the total
container count, that same positional index is restored — even when, under
the running-only filter, it lies beyond the row sequence; (4) otherwise no
row is selected; and (5) in show-all mode the row count equals the total,
so there the positional bound coincides with the claim's
within-bounds-of-newRows rule (in particular old index 7 with 3 rows and no
identity match restores nothing). -/
theorem c1_reconcile :
    ∀ (cs : List Rec) (showAll : Bool) (sel : Option String) (prevIdx : Nat),
      (viewRows cs showAll).2.1 = cs.length
      ∧ (∀ k, sel = some k →
          ((!(k == "")) && ((viewRows cs showAll).1.map Row.key).contains k) = true →
          restoreIdx sel prevIdx ((viewRows cs showAll).1.map Row.key)
              (viewRows cs showAll).2.1
            = some (idxOfKey k ((viewRows cs showAll).1.map Row.key)))
      ∧ (selMatches sel ((viewRows cs showAll).1.map Row.key) = false →
          prevIdx < cs.length →
          restoreIdx sel prevIdx ((viewRows cs showAll).1.map Row.key)
              (viewRows cs showAll).2.1
            = some prevIdx)
      ∧ (selMatches sel ((viewRows cs showAll).1.map Row.key) = false →
          cs.length ≤ prevIdx →
          restoreIdx sel prevIdx ((viewRows cs showAll).1.map Row.key)
              (viewRows cs showAll).2.1
            = none)
      ∧ (showAll = true → ((viewRows cs showAll).1.map Row.key).length = cs.length) := by
  intro cs showAll sel prevIdx
  have htot := viewRows_total cs showAll
  refine ⟨htot, ?_, ?_, ?_, ?_⟩
  · intro k hks hcond
    subst hks
    simp only [restoreIdx]
    rw [hcond]
    simp
  · intro hm hlt
    cases sel with
    | none =>
      simp only [restoreIdx]
      rw [htot]
      simp [hlt]
    | some k =>
      simp only [selMatches] at hm
      simp only [restoreIdx]
      rw [hm, htot]
      simp [hlt]
  · intro hm hge
    have hnlt : ¬prevIdx < cs.length := by omega
    cases sel with
    | none =>
      simp only [restoreIdx]
      rw [htot]
      simp [hnlt]
    | some k =>
      simp only [selMatches] at hm
      simp only [restoreIdx]
      rw [hm, htot]
      simp [hnlt]
  · intro hsa
    subst hsa
    rw [List.length_map]
    exact viewRows_len_all cs

/-- Witness for Claim C1: the spec's own instance — previous index 7, a
three-row show-all view, no identity match — restores nothing. -/
theorem c1_reconcile_witness :
    restoreIdx none 7
      ((viewRows [[("Names", "a"), ("Status", "Up 1 second")],
          [("Names", "b"), ("Status", "Up 2 seconds")],
          [("Names", "c"), ("Status", "Exited (0)")]] true).1.map Row.key)
      ((viewRows [[("Names", "a"), ("Status", "Up 1 second")],
          [("Names", "b"), ("Status", "Up 2 seconds")],
          [("Names", "c"), ("Status", "Exited (0)")]] true).2.1)
      = none := by
  exact (c1_reconcile [[("Names", "a"), ("Status", "Up 1 second")],
      [("Names", "b"), ("Status", "Up 2 seconds")],
      [("Names", "c"), ("Status", "Exited (0)")]] true none 7).2.2.2.1
    (by decide) (by decide)

/-- Claim C2 (confirmed): the running aggregate of the view-model build is
the count of running-classified containers of the whole snapshot, in either
filter mode, so toggling the filter never changes it: the loop increments
the running counter before the filter test, and the filter only skips
non-running containers. -/
theorem c2_running_aggregate :
    ∀ (cs : List Rec) (b : Bool),
      (viewRows cs b).2.2 = cs.countP isRunningRec
      ∧ (viewRows cs true).2.2 = (viewRows cs false).2.2 := by
  intro cs b
  refine ⟨viewRows_running cs b, ?_⟩
  rw [viewRows_running cs true, viewRows_running cs false]

/-- Counterexample to Claim C3. The claim says a single malformed output
line is skipped and the well-formed lines are still returned. In
get_containers the per-line json.loads has no handler, so the malformed
second line "oops" aborts the whole fetch even though the first line is a
well-formed record that parses on its own. -/
theorem c3_counterexample :
    json_loads "\x7b\"Names\":\"a\"\x7d" = some [("Names", "a")]
    ∧ parseStdout "\x7b\"Names\":\"a\"\x7d" = some [[("Names", "a")]]
    ∧ parseStdout "\x7b\"Names\":\"a\"\x7d\noops" = none
    ∧ get_containers (some "\x7b\"Names\":\"a\"\x7d\noops") = none := by
  decide

/-- Claim C3 (amended): there is no partial-success policy — a malformed
non-empty output line aborts the whole fetch. The fetch fails when the
external call cannot be invoked (absent stdout), and otherwise succeeds iff
every non-empty line parses as a record, in which case it returns exactly
the parsed records in order (empty lines are skipped). -/
theorem c3_fetch_all_or_nothing :
    get_containers none = none
    ∧ ∀ stdout : String,
        parseStdout stdout =
          (if (pySplit (pyStrip stdout) '\n').any
              (fun l => (!(l == "")) && (json_loads l).isNone) then none
           else some (((pySplit (pyStrip stdout) '\n').filter
              (fun l => !(l == ""))).filterMap json_loads)) := by
  exact ⟨rfl, fun _ => parseLines_eq _⟩

/-- Counterexample to Claim C4. The claim says that on a failed fetch the
previously displayed rows are retained and a transient status message is
surfaced. In load_containers the table is cleared before get_containers is
called, so when the fetch raises, the one-row previous view is gone (rows
empty, not retained) and the status bar still holds its old text — no
message about the failure is produced. -/
theorem c4_counterexample :
    (load_containers
        ⟨[⟨"[bold cyan](standalone)[/bold cyan]", "a", "[green]Up 5 seconds[/green]", "-", "a"⟩],
          0, " 1/1 running | filter: all", true⟩ none).rows = []
    ∧ ¬((⟨[⟨"[bold cyan](standalone)[/bold cyan]", "a", "[green]Up 5 seconds[/green]", "-", "a"⟩],
          0, " 1/1 running | filter: all", true⟩ : AppState).rows = [])
    ∧ (load_containers
        ⟨[⟨"[bold cyan](standalone)[/bold cyan]", "a", "[green]Up 5 seconds[/green]", "-", "a"⟩],
          0, " 1/1 running | filter: all", true⟩ none).statusBar
      = " 1/1 running | filter: all" := by
  decide

/-- Claim C4 (amended): the refresh is not atomic in its error branch — the
table is cleared before the fetch is attempted, so a failed fetch leaves an
emptied row sequence (the screen is blanked) with the cursor coordinate
reset, while the status-bar text and the filter flag keep their previous
values and no transient failure message is produced. -/
theorem c4_failed_fetch :
    ∀ st : AppState, load_containers st none = { st with rows := [], cursorRow := 0 } :=
  fun _ => rfl

/-- Counterexample to Claim C5. The claim says the external command's exit
status determines success and a non-zero exit is captured as an ActionError
and reported. The handler's observable behavior on exit status 1 consists
only of the progress and unconditional success notifications, both with
severity "information" — no error of any severity is reported — while the
specification's own dispatch contract at the same input demands the
ActionError; the refresh (the part of the claim the code does satisfy)
still occurs. -/
theorem c5_counterexample :
    notifMsgs (action_restart (some "web-1") 1) = ["Restarting web-1...", "web-1 restarted"]
    ∧ allInfoSeverity (action_restart (some "web-1") 1) = true
    ∧ Ev.refresh ∈ action_restart (some "web-1") 1
    ∧ dispatch_spec "restart" "web-1" 1
      = Except.error ⟨"restart", "web-1", "exit status 1"⟩ := by
  refine ⟨by decide, by decide, by decide, by rfl⟩

/-- Claim C5 (amended): the single-target handlers ignore the external
command's exit status entirely — subprocess.run is called without check and
its result is discarded. For every exit status the operator sees exactly
the progress message and the success message, both at severity
"information" (never an ActionError), the notifications are identical for
any two exit statuses, and exactly one refresh follows the dispatch. -/
theorem c5_exit_ignored :
    ∀ (verb prog fin name : String) (e e' : Int),
      notifMsgs (single_action verb prog fin (some name) e)
        = [prog ++ " " ++ name ++ "...", name ++ " " ++ fin]
      ∧ notifMsgs (single_action verb prog fin (some name) e)
        = notifMsgs (single_action verb prog fin (some name) e')
      ∧ (single_action verb prog fin (some name) e).countP isRefresh = 1
      ∧ allInfoSeverity (single_action verb prog fin (some name) e) = true := by
  intro verb prog fin name e e'
  exact ⟨rfl, rfl, rfl, rfl⟩

/-- Claim C6 (confirmed): for every single-target dispatch and every
project-scoped bulk dispatch with a selected target, whatever the exit
statuses of the issued commands, the trace contains exactly one refresh,
every issued command completes before the refresh (for the bulk handler the
thread-pool with-block joins all member commands before the refresh line
runs), and a human-readable summary notification is emitted. -/
theorem c6_refresh_once :
    ∀ (verb prog fin name proj : String) (e : Int) (members : List String)
      (exits : String → Int),
      ((single_action verb prog fin (some name) e).countP isRefresh = 1
        ∧ cmdsBeforeRefresh (single_action verb prog fin (some name) e)
        ∧ Ev.notify (name ++ " " ++ fin) "information"
            ∈ single_action verb prog fin (some name) e)
      ∧ ((project_action verb prog fin (some proj) members exits).countP isRefresh = 1
        ∧ cmdsBeforeRefresh (project_action verb prog fin (some proj) members exits)
        ∧ Ev.notify (proj ++ " " ++ fin ++ " (" ++ toString members.length ++ " containers)")
            "information"
            ∈ project_action verb prog fin (some proj) members exits) := by
  intro verb prog fin name proj e members exits
  refine ⟨⟨rfl, ?_, ?_⟩, ⟨?_, ?_, ?_⟩⟩
  · have hshape : single_action verb prog fin (some name) e
        = [Ev.notify (prog ++ " " ++ name ++ "...") "information", Ev.cmd verb name e]
          ++ [Ev.refresh, Ev.notify (name ++ " " ++ fin) "information"] := rfl
    rw [hshape]
    apply cmdsBefore_of_shape
    · intro ev hev
      rcases List.mem_cons.mp hev with h | h
      · rw [h]; rfl
      · rcases List.mem_cons.mp h with h' | h'
        · rw [h']; rfl
        · exact absurd h' (List.not_mem_nil ev)
    · intro ev hev
      rcases List.mem_cons.mp hev with h | h
      · rw [h]; rfl
      · rcases List.mem_cons.mp h with h' | h'
        · rw [h']; rfl
        · exact absurd h' (List.not_mem_nil ev)
  · simp [single_action]
  · have hz : (members.map fun n => Ev.cmd verb n (exits n)).countP isRefresh = 0 := by
      refine List.countP_eq_zero.mpr ?_
      intro a ha
      rcases List.mem_map.mp ha with ⟨n, _, rfl⟩
      simp [isRefresh]
    simp [project_action, List.countP_cons, List.countP_append, hz, isRefresh]
  · have hshape : project_action verb prog fin (some proj) members exits
        = (Ev.notify (prog ++ " all " ++ toString members.length ++ " containers in "
              ++ proj ++ "...") "information"
            :: members.map (fun n => Ev.cmd verb n (exits n)))
          ++ [Ev.refresh,
              Ev.notify (proj ++ " " ++ fin ++ " (" ++ toString members.length
                ++ " containers)") "information"] := by
      simp [project_action]
    rw [hshape]
    apply cmdsBefore_of_shape
    · intro ev hev
      rcases List.mem_cons.mp hev with h | h
      · rw [h]; rfl
      · rcases List.mem_map.mp h with ⟨n, _, rfl⟩
        rfl
    · intro ev hev
      rcases List.mem_cons.mp hev with h | h
      · rw [h]; rfl
      · rcases List.mem_cons.mp h with h' | h'
        · rw [h']; rfl
        · exact absurd h' (List.not_mem_nil ev)
  · simp [project_action]

/-- Witness for Claim C6 at a concrete bulk dispatch of two members with
failing exit statuses. -/
theorem c6_refresh_once_witness :
    (project_action "restart" "Restarting" "restarted" (some "api") ["a", "b"]
        (fun _ => 1)).countP isRefresh = 1
    ∧ cmdsBeforeRefresh (project_action "restart" "Restarting" "restarted" (some "api")
        ["a", "b"] (fun _ => 1)) := by
  exact ⟨(c6_refresh_once "restart" "Restarting" "restarted" "x" "api" 0 ["a", "b"]
      (fun _ => 1)).2.1,
    (c6_refresh_once "restart" "Restarting" "restarted" "x" "api" 0 ["a", "b"]
      (fun _ => 1)).2.2.1⟩

/-- Claim C7 (confirmed): the total aggregate counts every container of the
snapshot in both filter modes; with the running-only filter the row
sequence holds only the running containers, so the non-running ones are
omitted from the rows yet still counted in the total. -/
theorem c7_total_aggregate :
    ∀ (cs : List Rec) (b : Bool),
      (viewRows cs b).2.1 = cs.length
      ∧ (viewRows cs false).1.length = cs.countP isRunningRec := by
  intro cs b
  exact ⟨viewRows_total cs b, viewRows_len_filtered cs⟩

/-- Claim C8 (confirmed): the two-mapping example yields "8080, 8443", the
empty string yields "-", duplicate host ports collapse to one, and in
general the result is either the placeholder (exactly when the regex finds
no capture) or the comma-space join of a list that is duplicate-free,
numerically ascending, and holds exactly the captured ports. -/
theorem c8_port_parsing :
    parse_host_ports "0.0.0.0:8080->80/tcp, 0.0.0.0:8443->443/tcp" = "8080, 8443"
    ∧ parse_host_ports "" = "-"
    ∧ parse_host_ports "0.0.0.0:8080->80/tcp, 0.0.0.0:8080->81/tcp" = "8080"
    ∧ ∀ s : String,
        (findPorts s.data = [] → parse_host_ports s = "-")
        ∧ (findPorts s.data ≠ [] →
            ∃ l, parse_host_ports s = joinSep ", " l
              ∧ l.Nodup
              ∧ l.Pairwise (fun a b => portVal a ≤ portVal b)
              ∧ (∀ p, p ∈ l ↔ p ∈ findPorts s.data)) := by
  refine ⟨by decide, by decide, by decide, ?_⟩
  intro s
  refine ⟨parse_host_ports_dash s, ?_⟩
  intro h
  refine ⟨sortPorts (findPorts s.data).dedup, parse_host_ports_join s h,
    nodup_sortPorts _ (List.nodup_dedup _), pairwise_sortPorts _, ?_⟩
  intro p
  rw [mem_sortPorts, List.mem_dedup]

/-- Witness for Claim C8 at a concrete single-mapping string. -/
theorem c8_port_parsing_witness :
    ∃ l, parse_host_ports "0.0.0.0:7->x" = joinSep ", " l
      ∧ l.Nodup
      ∧ l.Pairwise (fun a b => portVal a ≤ portVal b)
      ∧ (∀ p, p ∈ l ↔ p ∈ findPorts "0.0.0.0:7->x".data) := by
  exact (c8_port_parsing.2.2.2 "0.0.0.0:7->x").2 (by decide)

/-- Counterexample to Claim C9. The claim says a non-JSON line is emitted
exactly as the input line. The formatter prints the stripped line: on input
" hello" it emits "hello", not " hello", and a whitespace-only line is
dropped entirely rather than passed through. -/
theorem c9_counterexample :
    fmtLine " hello" = ["hello"]
    ∧ ¬(fmtLine " hello" = [" hello"])
    ∧ fmtLine "   " = [] := by
  decide

/-- Claim C9 (amended): per input line, after stripping surrounding
whitespace: a blank line produces no output; a stripped line that fails to
parse as a JSON record is emitted once, stripped (not byte-identical to the
input); a stripped line that parses is emitted as the one colorized line
built from the record; every non-blank input yields exactly one output
line, as the concrete info-record example shows. -/
theorem c9_formatter :
    (∀ raw : String,
      (pyStrip raw = "" → fmtLine raw = [])
      ∧ (pyStrip raw ≠ "" → json_loads (pyStrip raw) = none → fmtLine raw = [pyStrip raw])
      ∧ (∀ e, pyStrip raw ≠ "" → json_loads (pyStrip raw) = some e →
          fmtLine raw = [formatEntry e])
      ∧ (pyStrip raw ≠ "" → (fmtLine raw).length = 1))
    ∧ fmtLine "\x7b\"level\":\"info\",\"timestamp\":\"2024-01-02T10:11:12.000Z\",\"message\":\"started\"\x7d"
      = ["\x1b[32mINFO \x1b[0m \x1b[90m10:11:12\x1b[0m started"] := by
  constructor
  · intro raw
    refine ⟨?_, ?_, ?_, ?_⟩
    · intro h
      simp [fmtLine, h]
    · intro h hj
      simp [fmtLine, h, hj]
    · intro e h hj
      simp [fmtLine, h, hj]
    · intro h
      cases hj : json_loads (pyStrip raw) with
      | none => simp [fmtLine, h, hj]
      | some e => simp [fmtLine, h, hj]
  · decide

/-- Witness for Claim C9 at a concrete plain-text line. -/
theorem c9_formatter_witness :
    fmtLine "plain" = [pyStrip "plain"] := by
  exact (c9_formatter.1 "plain").2.1 (by decide) (by decide)

/-- Counterexample to Claim C10. The claim says every non-empty mapping
string whose mappings are published on host addresses other than 0.0.0.0
yields "-". The regex is unanchored: the mapping "10.0.0.0:8080->80/tcp",
published on host address 10.0.0.0, contains "0.0.0.0:8080->" as a
substring, so parse_host_ports returns "8080", not the placeholder. -/
theorem c10_counterexample :
    parse_host_ports "10.0.0.0:8080->80/tcp" = "8080"
    ∧ ¬(parse_host_ports "10.0.0.0:8080->80/tcp" = "-") := by
  decide

/-- Claim C10 (amended): port parsing searches for the unanchored substring
pattern 0.0.0.0:PORT->. The claim's examples hold — "127.0.0.1:8080->80/tcp"
and "[::]:8080->80/tcp" contain no occurrence and yield "-", as does every
string without an occurrence — but a host address that merely ends in
0.0.0.0, such as 10.0.0.0, also matches, so mappings on other host
addresses do not universally yield the placeholder. -/
theorem c10_host_pattern :
    parse_host_ports "127.0.0.1:8080->80/tcp" = "-"
    ∧ parse_host_ports "[::]:8080->80/tcp" = "-"
    ∧ (∀ s : String, findPorts s.data = [] → parse_host_ports s = "-")
    ∧ parse_host_ports "10.0.0.0:8080->80/tcp" = "8080" := by
  exact ⟨by decide, by decide, parse_host_ports_dash, by decide⟩

/-- Witness for Claim C10 at a concrete matchless string. -/
theorem c10_host_pattern_witness :
    parse_host_ports "br0" = "-" := by
  exact c10_host_pattern.2.2.1 "br0" (by decide)

end Dockview
